import Mathlib

/-!
# Sentinel AI live event feed (`frontend/src/App.js`)

A shallow embedding of the single React component `App`:

* the two state cells `events` / `error` (lines 5-6),
* the poll `fetchEvents` (lines 8-21),
* the effect hook that schedules polls (lines 23-27),
* the dynamic part of the rendered tree (lines 40-57).

JavaScript values are embedded as an inductive type of JSON values, thrown
exceptions as `Except.error`, and the platform facilities the component calls
but does not define (the text `Date` produces, the numeric value a non-number
is coerced to) are fields of `JsEnv`. Where such a facility raises, namely
when an object cannot be converted to a primitive, the embedding raises too.
-/

namespace Sentinel

/-! ## JavaScript values -/

/-- Values that `response.json()` can produce. A JSON number is kept as a
rational: the component never does arithmetic on it, it only tests it for
truthiness and compares it with zero. -/
inductive JSValue where
  | null
  | bool (b : Bool)
  | num (q : Rat)
  | str (s : String)
  | arr (items : List JSValue)
  | obj (members : List (String × JSValue))

/-- A thrown JavaScript exception: constructor name and message. -/
structure JsError where
  name : String
  message : String

/-- Platform behaviour used by the component but defined outside of it. -/
structure JsEnv where
  /-- The text `new Date(v).toLocaleString()` produces on line 48 once `v` has
  been converted to a primitive; the argument is `none` when the property is
  `undefined`. Whether that conversion raises is decided by
  `JSValue.convertible`, not here. -/
  toLocaleString : Option JSValue → String
  /-- Outcome of `v > 0` for an operand that is not a number (string, boolean,
  null, array or object) and whose conversion to a primitive completes: whether
  `ToNumber` of it is positive. -/
  coercedGtZero : JSValue → Bool

/-- Truthiness (`ToBoolean`) of a JSON value. -/
def JSValue.truthy : JSValue → Bool
  | .null => false
  | .bool b => b
  | .num q => decide (q ≠ 0)
  | .str s => decide (s ≠ "")
  | .arr _ => true
  | .obj _ => true

/-- Own-property lookup in a parsed JSON object; when a key is repeated in the
text, `JSON.parse` keeps the last occurrence. -/
def lookupMember (members : List (String × JSValue)) (key : String) : Option JSValue :=
  (members.reverse.find? (fun kv => kv.1 == key)).map (fun kv => kv.2)

/-- Number of UTF-16 code units of a string, the value of `s.length`. -/
def utf16Length (s : String) : Nat :=
  (s.toList.map (fun c => if c.val < 0x10000 then 1 else 2)).sum

/-- Property read `event.key` for the keys used in a row (`hostname`,
`timestamp`, `details`, `event_type`) on a value that is not `null`:
objects answer with their own member, every other value with `undefined`
(`none`). -/
def JSValue.member (v : JSValue) (key : String) : Option JSValue :=
  match v with
  | .obj members => lookupMember members key
  | _ => none

/-- The value of `events.length` for a truthy `events`; `none` is `undefined`. -/
def JSValue.length (v : JSValue) : Option JSValue :=
  match v with
  | .arr items => some (.num (items.length : Nat))
  | .str s => some (.num (utf16Length s : Nat))
  | .obj members => lookupMember members "length"
  | _ => none

mutual
/-- Whether converting a parsed JSON value to a primitive completes
(`ToPrimitive`, as done by `new Date(v)` and by `v > 0`). An object parsed from
JSON inherits `Object.prototype.toString` unless it has a member of its own
named `toString`; such a member is never callable, and then the conversion
raises a `TypeError`. An array is joined, which converts each entry in turn. -/
def JSValue.convertible : JSValue → Bool
  | .obj members => (lookupMember members "toString").isNone
  | .arr items => allConvertible items
  | _ => true
/-- All entries of an array convert. -/
def allConvertible : List JSValue → Bool
  | [] => true
  | item :: rest => item.convertible && allConvertible rest
end

/-- The `TypeError` of a failed conversion to a primitive. -/
def conversionError : JsError :=
  { name := "TypeError", message := "Cannot convert object to primitive value" }

/-- The comparison `x > 0` of line 43 (`undefined > 0` is `false`). -/
def gtZero (env : JsEnv) : Option JSValue → Except JsError Bool
  | none => pure false
  | some (.num q) => pure (decide (0 < q))
  | some v => if v.convertible then pure (env.coercedGtZero v) else throw conversionError

/-! ## Feed state and the poll -/

/-- The two `useState` cells of the component. -/
structure FeedState where
  /-- Line 5: `const [events, setEvents] = useState([])`. -/
  events : JSValue
  /-- Line 6: `const [error, setError] = useState(null)`; `none` is `null`. -/
  error : Option String

/-- State at mount: `useState([])`, `useState(null)`. -/
def initialState : FeedState :=
  { events := .arr [], error := none }

/-- What `fetch` hands back when it resolves: the two fields the component
reads and the outcome of `await response.json()`. -/
structure Response where
  ok : Bool
  status : Nat
  json : Except JsError JSValue

/-- Outcome of `await fetch(...)`, line 10: a thrown transport error or a
response. -/
abbrev FetchOutcome := Except JsError Response

/-- The message of line 19. -/
def connectMessage : String :=
  "Failed to connect to backend. Is the API server running on port 8000?"

/-- Lines 10-14, the part of the `try` block that can throw: it yields the
parsed `data` or the exception that reaches `catch`. -/
def fetchData (net : FetchOutcome) : Except JsError JSValue := do
  let response ← net
  if !response.ok then
    throw { name := "Error", message := "HTTP error! status: " ++ toString response.status }
  let data ← response.json
  pure data

/-- Lines 8-21. On the normal path `setEvents(data); setError(null)` (lines
15-16); in `catch` the exception is logged and `setError(...)` runs (lines
18-19). Both paths complete normally, so the result is always `Except.ok`. -/
def fetchEvents (s : FeedState) (net : FetchOutcome) : Except JsError FeedState :=
  match fetchData net with
  | .ok data => pure { events := data, error := none }
  | .error _ => pure { s with error := some connectMessage }

/-- Polls applied one after the other, each to the state left by the previous. -/
def applyPolls (s : FeedState) (polls : List FetchOutcome) : Except JsError FeedState :=
  polls.foldlM fetchEvents s

/-! ## Rendering -/

/-- One `<div key=...>` of lines 45-52. -/
structure EventRow where
  key : Nat
  hostname : Option JSValue
  time : String
  details : Option JSValue
  event_type : Option JSValue

/-- What the scroll container of lines 42-57 holds. -/
inductive Feed where
  | rows (items : List EventRow)
  | placeholder
  | nothing

/-- The dynamic part of the tree returned by `App`. -/
structure View where
  /-- Line 40: the text of the red paragraph, when it is rendered. -/
  banner : Option String
  /-- Lines 43-56. -/
  feed : Feed

/-- Truthiness of the `error` cell (`null` and the empty string are falsy). -/
def errorTruthy : Option String → Bool
  | none => false
  | some msg => decide (msg ≠ "")

/-- Line 40: `error && <p ...>error</p>`. -/
def renderBanner (error : Option String) : Option String :=
  if errorTruthy error then error else none

/-- Line 48: `new Date(event.timestamp).toLocaleString()`. The constructor
converts its argument to a primitive first, which can raise. -/
def displayTime (env : JsEnv) (timestamp : Option JSValue) : Except JsError String :=
  match timestamp with
  | none => pure (env.toLocaleString none)
  | some v =>
    if v.convertible then pure (env.toLocaleString (some v)) else throw conversionError

/-- Lines 45-52, the callback of `events.map`. The first read, `event.hostname`
on line 47, throws a `TypeError` when the entry is `null`; line 48 throws when
the timestamp cannot be converted. -/
def renderRow (env : JsEnv) (event : JSValue) (index : Nat) : Except JsError EventRow :=
  match event with
  | .null =>
    throw { name := "TypeError"
            message := "Cannot read properties of null (reading \x27hostname\x27)" }
  | _ => do
    let time ← displayTime env (event.member "timestamp")
    pure { key := index
           hostname := event.member "hostname"
           time := time
           details := event.member "details"
           event_type := event.member "event_type" }

/-- The call `items.map(callback)` on an array, from index `index` on. -/
def mapRows (env : JsEnv) : List JSValue → Nat → Except JsError (List EventRow)
  | [], _ => pure []
  | event :: rest, index => do
    let row ← renderRow env event index
    let others ← mapRows env rest (index + 1)
    pure (row :: others)

/-- The call `events.map(...)` of line 44: only arrays have a callable `map`. -/
def callMap (env : JsEnv) (events : JSValue) : Except JsError (List EventRow) :=
  match events with
  | .arr items => mapRows env items 0
  | _ => throw { name := "TypeError", message := "events.map is not a function" }

/-- The condition of line 43, `events && events.length > 0`; the comparison is
not evaluated when `events` is falsy. -/
def hasRows (env : JsEnv) (events : JSValue) : Except JsError Bool :=
  if events.truthy then gtZero env events.length else pure false

/-- Lines 43-56: `events && events.length > 0 ? events.map(...) : (!error && <p>...</p>)`. -/
def renderFeed (env : JsEnv) (s : FeedState) : Except JsError Feed := do
  let nonEmpty ← hasRows env s.events
  if nonEmpty then
    let items ← callMap env s.events
    pure (Feed.rows items)
  else if !errorTruthy s.error then
    pure Feed.placeholder
  else
    pure Feed.nothing

/-- The component function, lines 29-61 (static markup omitted). -/
def App (env : JsEnv) (s : FeedState) : Except JsError View := do
  let feed ← renderFeed env s
  pure { banner := renderBanner s.error, feed := feed }

/-- The error paragraph is on screen. -/
def View.showsError (v : View) : Bool :=
  v.banner.isSome

/-- At least one event row is on screen. -/
def View.showsRows (v : View) : Bool :=
  match v.feed with
  | .rows (_ :: _) => true
  | _ => false

/-- The awaiting-data paragraph is on screen. -/
def View.showsPlaceholder (v : View) : Bool :=
  match v.feed with
  | .placeholder => true
  | _ => false

/-! ## Classification of poll results -/

/-- The `data` a poll result delivers when the `try` block runs to its end: an
ok response whose body parsed. -/
def successData : FetchOutcome → Option JSValue
  | .ok { ok := true, status := _, json := .ok data } => some data
  | _ => none

/-- A poll result that reaches `catch`: `fetch` threw, the status is not ok, or
parsing the body threw. -/
def pollFailed : FetchOutcome → Bool
  | .error _ => true
  | .ok { ok := false, status := _, json := _ } => true
  | .ok { ok := true, status := _, json := .error _ } => true
  | .ok { ok := true, status := _, json := .ok _ } => false

/-- Data of the most recently applied successful result, the empty sequence
when none succeeded. -/
def latestEvents (polls : List FetchOutcome) : JSValue :=
  (polls.reverse.findSome? successData).getD (.arr [])

/-- Whether the most recently applied result was a failure; `false` for the
empty history. -/
def lastFailed (polls : List FetchOutcome) : Bool :=
  match polls.getLast? with
  | none => false
  | some net => pollFailed net

/-- A member that is present and holds a string. -/
def isStringMember (v : JSValue) (key : String) : Bool :=
  match v.member key with
  | some (.str _) => true
  | _ => false

/-- Wire shape of one event: an object with string members `hostname`,
`timestamp`, `event_type` and `details`. -/
def isEventObject (v : JSValue) : Bool :=
  match v with
  | .obj _ =>
    isStringMember v "hostname" && isStringMember v "timestamp" &&
      isStringMember v "event_type" && isStringMember v "details"
  | _ => false

/-- Wire shape of the body: a JSON array of event objects. -/
def isEventList : JSValue → Bool
  | .arr items => items.all isEventObject
  | _ => false

/-! ## The poll scheduler (effect hook, lines 23-27) -/

/-- Period passed to `setInterval` on line 25, in milliseconds. -/
def pollInterval : Nat := 3000

/-- The effect hook seen from outside: a millisecond clock, the interval timer
registered by line 25 (given by the time it is next due, `none` when no timer
is registered) and the number of calls of `fetchEvents` made so far. -/
structure Scheduler where
  now : Nat
  interval : Option Nat
  polls : Nat

/-- What can happen to the mounted component: the effect runs (mount), time
passes, the cleanup returned on line 26 runs (unmount). -/
inductive Lifecycle where
  | mount
  | elapse (ms : Nat)
  | unmount

/-- Number of times a periodic timer next due at `due` fires while the clock
goes from `now` to `now + ms`. -/
def firings (now due ms : Nat) : Nat :=
  if due ≤ now + ms then (now + ms - due) / pollInterval + 1 else 0

/-- One step of the scheduler.
* mount: line 24 calls `fetchEvents()` at once, line 25 registers the timer;
* elapse: every firing of the registered timer calls `fetchEvents`;
* unmount: line 26, `clearInterval(interval)`. -/
def Scheduler.step (s : Scheduler) : Lifecycle → Scheduler
  | .mount =>
    { now := s.now, interval := some (s.now + pollInterval), polls := s.polls + 1 }
  | .elapse ms =>
    match s.interval with
    | none => { s with now := s.now + ms }
    | some due =>
      { now := s.now + ms
        interval := some (due + firings s.now due ms * pollInterval)
        polls := s.polls + firings s.now due ms }
  | .unmount => { s with interval := none }

/-- A sequence of steps. -/
def Scheduler.run (s : Scheduler) (trace : List Lifecycle) : Scheduler :=
  trace.foldl Scheduler.step s

/-- Before the component is mounted: no timer, no poll made. -/
def Scheduler.idle : Scheduler :=
  { now := 0, interval := none, polls := 0 }

/-! ## Event records and sample data -/

/-- An event as the collector sends it: four strings. -/
structure Event where
  hostname : String
  timestamp : String
  event_type : String
  details : String

/-- The object `response.json()` yields for an event sent with its four
members in the order of Scenario B. -/
def Event.toJSON (e : Event) : JSValue :=
  .obj [("hostname", .str e.hostname), ("timestamp", .str e.timestamp),
        ("event_type", .str e.event_type), ("details", .str e.details)]

/-- An entry of `events` for which the row callback completes: it is not
`null` and its timestamp, when present, converts to a primitive. -/
def rowRenders (event : JSValue) : Bool :=
  match event with
  | .null => false
  | _ =>
    match event.member "timestamp" with
    | none => true
    | some v => v.convertible

/-- The event of Scenario B. -/
def loginEvent : Event :=
  { hostname := "h1", timestamp := "2024-01-01T00:00:00Z", event_type := "LOGIN", details := "ok" }

/-- A second event, from another host. -/
def scanEvent : Event :=
  { hostname := "h2", timestamp := "2024-01-01T00:05:00Z", event_type := "PORT_SCAN"
    details := "blocked" }

/-- The event of Scenario B as parsed JSON. -/
def sampleEvent : JSValue :=
  .obj [("hostname", .str "h1"), ("timestamp", .str "2024-01-01T00:00:00Z"),
        ("event_type", .str "LOGIN"), ("details", .str "ok")]

/-- The row `App` builds from `sampleEvent` at index `0`. -/
def sampleRow (env : JsEnv) : EventRow :=
  { key := 0
    hostname := some (.str "h1")
    time := env.toLocaleString (some (.str "2024-01-01T00:00:00Z"))
    details := some (.str "ok")
    event_type := some (.str "LOGIN") }

/-- An ok response with status 200 whose body parsed to `body`. -/
def okResponse (body : JSValue) : FetchOutcome :=
  .ok { ok := true, status := 200, json := .ok body }

/-- A response with status 503 (the body is never read). -/
def unavailable : FetchOutcome :=
  .ok { ok := false, status := 503, json := .ok .null }

/-! ## The poll: lemmas -/

theorem fetchEvents_of_successData (s : FeedState) (net : FetchOutcome) (data : JSValue)
    (h : successData net = some data) :
    fetchEvents s net = .ok { events := data, error := none } := by
  rcases net with e | ⟨ok, status, json⟩
  · simp [successData] at h
  · cases ok <;> cases json <;> simp [successData] at h
    subst h
    rfl

theorem fetchEvents_of_pollFailed (s : FeedState) (net : FetchOutcome)
    (h : pollFailed net = true) :
    fetchEvents s net = .ok { events := s.events, error := some connectMessage } := by
  rcases net with e | ⟨ok, status, json⟩
  · rfl
  · cases ok <;> cases json <;> first | rfl | simp [pollFailed] at h

theorem successData_eq_none_iff (net : FetchOutcome) :
    successData net = none ↔ pollFailed net = true := by
  rcases net with e | ⟨ok, status, json⟩
  · simp [successData, pollFailed]
  · cases ok <;> cases json <;> simp [successData, pollFailed]

theorem applyPolls_append (s : FeedState) (polls : List FetchOutcome) (net : FetchOutcome) :
    applyPolls s (polls ++ [net]) = applyPolls s polls >>= fun s1 => fetchEvents s1 net := by
  simp [applyPolls, List.foldlM_append]

theorem latestEvents_append (polls : List FetchOutcome) (net : FetchOutcome) :
    latestEvents (polls ++ [net]) =
      match successData net with
      | some data => data
      | none => latestEvents polls := by
  unfold latestEvents
  cases h : successData net <;> simp [List.findSome?, h]

theorem lastFailed_append (polls : List FetchOutcome) (net : FetchOutcome) :
    lastFailed (polls ++ [net]) = pollFailed net := by
  simp [lastFailed]

/-! ## Rendering: lemmas -/

theorem gtZero_arr_length (env : JsEnv) (xs : List JSValue) :
    gtZero env (JSValue.length (.arr xs)) = .ok (!xs.isEmpty) := by
  cases xs with
  | nil => simp [gtZero, JSValue.length, pure, Except.pure]
  | cons x rest =>
    have : (0 : Rat) < ((rest.length : Nat) : Rat) + 1 := by positivity
    simp [gtZero, JSValue.length, this, pure, Except.pure]

theorem hasRows_arr (env : JsEnv) (xs : List JSValue) :
    hasRows env (.arr xs) = .ok (!xs.isEmpty) := by
  simp [hasRows, JSValue.truthy, gtZero_arr_length]

theorem renderRow_ok (env : JsEnv) (x : JSValue) (i : Nat) (h : rowRenders x = true) :
    renderRow env x i = .ok
      { key := i
        hostname := x.member "hostname"
        time := env.toLocaleString (x.member "timestamp")
        details := x.member "details"
        event_type := x.member "event_type" } := by
  cases x with
  | null => simp [rowRenders] at h
  | obj members =>
    unfold rowRenders at h
    simp only at h
    unfold renderRow displayTime
    simp only
    cases ht : JSValue.member (.obj members) "timestamp" with
    | none => rfl
    | some v =>
      rw [ht] at h
      simp only at h
      simp [h, bind, Except.bind, pure, Except.pure]
  | bool b => rfl
  | num q => rfl
  | str t => rfl
  | arr items => rfl

theorem mapRows_ok (env : JsEnv) (xs : List JSValue) (h : ∀ x ∈ xs, rowRenders x = true)
    (i : Nat) :
    mapRows env xs i = .ok ((List.range xs.length).zipWith
      (fun k x =>
        { key := i + k
          hostname := JSValue.member x "hostname"
          time := env.toLocaleString (JSValue.member x "timestamp")
          details := JSValue.member x "details"
          event_type := JSValue.member x "event_type" }) xs) := by
  induction xs generalizing i with
  | nil => rfl
  | cons x rest ih =>
    have hx : rowRenders x = true := h x (List.mem_cons_self _ _)
    have hrest : ∀ y ∈ rest, rowRenders y = true := fun y hy => h y (List.mem_cons_of_mem _ hy)
    rw [mapRows, renderRow_ok env x i hx, ih hrest (i + 1)]
    simp only [List.length_cons, List.range_succ_eq_map, List.zipWith_cons_cons,
      List.zipWith_map_left]
    simp [Except.bind, bind, pure, Except.pure, Nat.add_comm, Nat.add_left_comm, Nat.add_assoc]

theorem mapRows_length (env : JsEnv) (xs : List JSValue) (i : Nat) (rows : List EventRow)
    (h : mapRows env xs i = .ok rows) : rows.length = xs.length := by
  induction xs generalizing i rows with
  | nil =>
    simp [mapRows, pure, Except.pure] at h
    subst h; rfl
  | cons x rest ih =>
    rw [mapRows] at h
    cases hr : renderRow env x i with
    | error e => simp [hr, bind, Except.bind] at h
    | ok row =>
      cases hm : mapRows env rest (i + 1) with
      | error e => simp [hr, hm, bind, Except.bind] at h
      | ok others =>
        simp [hr, hm, bind, Except.bind, pure, Except.pure] at h
        subst h
        simp [ih (i + 1) others hm]

theorem rowRenders_toJSON (e : Event) : rowRenders e.toJSON = true := by
  simp [rowRenders, Event.toJSON, JSValue.member, lookupMember, JSValue.convertible]

theorem member_toJSON (e : Event) :
    e.toJSON.member "hostname" = some (.str e.hostname) ∧
    e.toJSON.member "timestamp" = some (.str e.timestamp) ∧
    e.toJSON.member "details" = some (.str e.details) ∧
    e.toJSON.member "event_type" = some (.str e.event_type) := by
  simp [Event.toJSON, JSValue.member, lookupMember]

/-- Rows built from a sequence of event records. -/
theorem mapRows_events (env : JsEnv) (es : List Event) :
    mapRows env (es.map Event.toJSON) 0 = .ok ((List.range es.length).zipWith
      (fun k e =>
        { key := k
          hostname := some (.str e.hostname)
          time := env.toLocaleString (some (.str e.timestamp))
          details := some (.str e.details)
          event_type := some (.str e.event_type) }) es) := by
  rw [mapRows_ok env (es.map Event.toJSON)
    (by
      intro x hx
      obtain ⟨e, -, rfl⟩ := List.mem_map.1 hx
      exact rowRenders_toJSON e) 0]
  have hrow : ∀ (k : Nat) (e : Event),
      ({ key := 0 + k
         hostname := JSValue.member e.toJSON "hostname"
         time := env.toLocaleString (JSValue.member e.toJSON "timestamp")
         details := JSValue.member e.toJSON "details"
         event_type := JSValue.member e.toJSON "event_type" } : EventRow)
      = { key := k
          hostname := some (.str e.hostname)
          time := env.toLocaleString (some (.str e.timestamp))
          details := some (.str e.details)
          event_type := some (.str e.event_type) } := by
    intro k e
    obtain ⟨h1, h2, h3, h4⟩ := member_toJSON e
    rw [h1, h2, h3, h4, Nat.zero_add]
  simp only [List.length_map, List.zipWith_map_right, hrow]

/-! ## The poll: results -/

/-- C1: for every prior feed state and every successful poll (ok status, body
parsed to a sequence `data`), the state after `fetchEvents` has `events` equal
to exactly `data` and `error` cleared. -/
theorem fetchEvents_success_replaces (s : FeedState) (status : Nat) (data : List JSValue) :
    fetchEvents s (.ok { ok := true, status := status, json := .ok (.arr data) })
      = .ok { events := .arr data, error := none } :=
  rfl

/-- C2: for every prior feed state and every failed poll (transport failure
thrown by `fetch`, non-ok status with any code and any body, or a body whose
parsing throws), the state after `fetchEvents` has `error` set to the one fixed
message and `events` as before the poll. -/
theorem fetchEvents_failure_keeps_events (s : FeedState) :
    (∀ e : JsError,
      fetchEvents s (.error e) = .ok { events := s.events, error := some connectMessage }) ∧
    (∀ (status : Nat) (body : Except JsError JSValue),
      fetchEvents s (.ok { ok := false, status := status, json := body })
        = .ok { events := s.events, error := some connectMessage }) ∧
    (∀ (status : Nat) (e : JsError),
      fetchEvents s (.ok { ok := true, status := status, json := .error e })
        = .ok { events := s.events, error := some connectMessage }) :=
  ⟨fun _ => rfl, fun _ _ => rfl, fun _ _ => rfl⟩

/-- C4, as stated, fails: an ok response whose body parses to the JSON object
with no members is not of the event-list shape, yet after the poll `events` is
that object and `error` is cleared. -/
theorem fetchEvents_accepts_object_body :
    isEventList (.obj []) = false ∧
    fetchEvents initialState (okResponse (.obj []))
      = .ok { events := .obj [], error := none } :=
  ⟨rfl, rfl⟩

/-- C4, amended: for every ok response whose body parses to a value that is not
an array of event objects, `fetchEvents` treats the poll as a success: `events`
is replaced by the parsed value and `error` is cleared. -/
theorem fetchEvents_accepts_any_parsed_body (s : FeedState) (status : Nat) (body : JSValue)
    (_hshape : isEventList body = false) :
    fetchEvents s (.ok { ok := true, status := status, json := .ok body })
      = .ok { events := body, error := none } :=
  rfl

/-- C4, amended, at the JSON string `"oops"` received with status 200 in a
state that already shows an event. -/
theorem fetchEvents_accepts_any_parsed_body_witness :
    isEventList (.str "oops") = false ∧
    fetchEvents { events := .arr [sampleEvent], error := none }
        (.ok { ok := true, status := 200, json := .ok (.str "oops") })
      = .ok { events := .str "oops", error := none } :=
  ⟨rfl, fetchEvents_accepts_any_parsed_body _ 200 (.str "oops") rfl⟩

/-- C8: applying any finite sequence of poll results in order to the initial
state never raises and leaves `events` equal to the data of the most recently
applied successful result (the empty sequence if none succeeded) and `error`
set, to the fixed message, if and only if the most recently applied result was
a failure (absent for the empty sequence). -/
theorem applyPolls_keeps_latest (polls : List FetchOutcome) :
    ∃ s : FeedState, applyPolls initialState polls = .ok s ∧
      s.events = latestEvents polls ∧
      (s.error ≠ none ↔ lastFailed polls = true) ∧
      s.error = (if lastFailed polls then some connectMessage else none) := by
  induction polls using List.reverseRecOn with
  | nil => exact ⟨initialState, rfl, rfl, by simp [initialState, lastFailed], rfl⟩
  | append_singleton polls net ih =>
    obtain ⟨s, hs, hev, -, -⟩ := ih
    rw [applyPolls_append, hs, latestEvents_append, lastFailed_append]
    cases hd : successData net with
    | some data =>
      have hf : pollFailed net = false := by
        cases hp : pollFailed net
        · rfl
        · rw [(successData_eq_none_iff net).2 hp] at hd
          cases hd
      refine ⟨{ events := data, error := none }, ?_, rfl, by simp [hf], by simp [hf]⟩
      simp [bind, Except.bind, fetchEvents_of_successData s net data hd]
    | none =>
      have hf : pollFailed net = true := (successData_eq_none_iff net).1 hd
      refine ⟨{ events := s.events, error := some connectMessage }, ?_, hev,
        by simp [hf], by simp [hf]⟩
      simp [bind, Except.bind, fetchEvents_of_pollFailed s net hf]

/-- C10: for every feed state and every successful poll result, applying the
result twice in a row yields the same state as applying it once. -/
theorem fetchEvents_success_idempotent (s : FeedState) (status : Nat) (data : JSValue) :
    (fetchEvents s (.ok { ok := true, status := status, json := .ok data }) >>= fun s1 =>
        fetchEvents s1 (.ok { ok := true, status := status, json := .ok data }))
      = fetchEvents s (.ok { ok := true, status := status, json := .ok data }) :=
  rfl

/-! ## Rendering: structure of the result -/

theorem App_eq (env : JsEnv) (s : FeedState) :
    App env s = (renderFeed env s).map (fun feed => { banner := renderBanner s.error, feed := feed }) := by
  unfold App
  cases renderFeed env s <;> rfl

theorem renderFeed_of_hasRows (env : JsEnv) (s : FeedState) (b : Bool)
    (h : hasRows env s.events = .ok b) :
    renderFeed env s =
      if b then (callMap env s.events).map Feed.rows
      else .ok (if errorTruthy s.error then Feed.nothing else Feed.placeholder) := by
  unfold renderFeed
  rw [h]
  cases b
  · cases errorTruthy s.error <;> rfl
  · cases callMap env s.events <;> rfl

theorem renderFeed_arr (env : JsEnv) (xs : List JSValue) (error : Option String) :
    renderFeed env { events := .arr xs, error := error } =
      if xs.isEmpty then
        .ok (if errorTruthy error then Feed.nothing else Feed.placeholder)
      else (mapRows env xs 0).map Feed.rows := by
  rw [renderFeed_of_hasRows env _ _ (hasRows_arr env xs)]
  cases xs.isEmpty <;> rfl

theorem renderFeed_ok_cases (env : JsEnv) (s : FeedState) (feed : Feed)
    (h : renderFeed env s = .ok feed) :
    (∃ xs rows, s.events = .arr xs ∧ xs ≠ [] ∧ mapRows env xs 0 = .ok rows ∧
        feed = .rows rows) ∨
    ((∀ xs, s.events = .arr xs → xs = []) ∧
        feed = if errorTruthy s.error then Feed.nothing else Feed.placeholder) := by
  cases hb : hasRows env s.events with
  | error e =>
    unfold renderFeed at h
    rw [hb] at h
    cases h
  | ok b =>
    rw [renderFeed_of_hasRows env s b hb] at h
    cases b
    · right
      simp only [Bool.false_eq_true, if_false, Except.ok.injEq] at h
      refine ⟨?_, h.symm⟩
      intro xs hxs
      rw [hxs, hasRows_arr] at hb
      cases xs with
      | nil => rfl
      | cons x rest => simp at hb
    · left
      simp only [if_true] at h
      cases hev : s.events with
      | arr xs =>
        rw [hev] at h hb
        rw [hasRows_arr] at hb
        have hne : xs ≠ [] := by
          intro hnil
          rw [hnil] at hb
          simp at hb
        cases hm : mapRows env xs 0 with
        | error e => simp [callMap, hm, Except.map] at h
        | ok rows =>
          simp [callMap, hm, Except.map] at h
          exact ⟨xs, rows, rfl, hne, hm, h.symm⟩
      | null => rw [hev] at h; cases h
      | bool c => rw [hev] at h; cases h
      | num q => rw [hev] at h; cases h
      | str t => rw [hev] at h; cases h
      | obj members => rw [hev] at h; cases h

theorem renderFeed_ok_congr (env : JsEnv) (s t : FeedState) (h : s.events = t.events) :
    (∃ feed, renderFeed env s = .ok feed) ↔ (∃ feed, renderFeed env t = .ok feed) := by
  cases hb : hasRows env s.events with
  | error e =>
    have hs : renderFeed env s = .error e := by
      unfold renderFeed
      rw [hb]
      rfl
    have ht : renderFeed env t = .error e := by
      unfold renderFeed
      rw [← h, hb]
      rfl
    rw [hs, ht]
  | ok b =>
    rw [renderFeed_of_hasRows env s b hb, renderFeed_of_hasRows env t b (h ▸ hb), ← h]
    cases b
    · simp
    · simp

theorem App_ok_congr (env : JsEnv) (s t : FeedState) (h : s.events = t.events) :
    (∃ v, App env s = .ok v) ↔ (∃ v, App env t = .ok v) := by
  have key : ∀ u : FeedState, (∃ v, App env u = .ok v) ↔ (∃ feed, renderFeed env u = .ok feed) := by
    intro u
    rw [App_eq]
    cases renderFeed env u <;> simp [Except.map]
  rw [key, key]
  exact renderFeed_ok_congr env s t h

theorem App_events (env : JsEnv) (es : List Event) (error : Option String) :
    App env { events := .arr (es.map Event.toJSON), error := error } =
      .ok { banner := renderBanner error
            feed :=
              if es.isEmpty then (if errorTruthy error then Feed.nothing else Feed.placeholder)
              else .rows ((List.range es.length).zipWith
                (fun k e =>
                  { key := k
                    hostname := some (.str e.hostname)
                    time := env.toLocaleString (some (.str e.timestamp))
                    details := some (.str e.details)
                    event_type := some (.str e.event_type) }) es) } := by
  rw [App_eq, renderFeed_arr, mapRows_events]
  cases es with
  | nil => rfl
  | cons e rest => rfl

theorem applyPolls_error_cases (polls : List FetchOutcome) (s : FeedState)
    (h : applyPolls initialState polls = .ok s) :
    s.error = none ∨ s.error = some connectMessage := by
  induction polls using List.reverseRecOn generalizing s with
  | nil =>
    left
    simp [applyPolls, pure, Except.pure] at h
    rw [← h]
    rfl
  | append_singleton polls net _ =>
    rw [applyPolls_append] at h
    cases hp : applyPolls initialState polls with
    | error e => simp [hp, bind, Except.bind] at h
    | ok t =>
      simp only [hp, bind, Except.bind] at h
      cases hf : pollFailed net
      · have hd : successData net ≠ none := fun hn => by
          rw [(successData_eq_none_iff net).1 hn] at hf
          cases hf
        obtain ⟨data, hdata⟩ := Option.ne_none_iff_exists'.1 hd
        rw [fetchEvents_of_successData t net data hdata] at h
        left
        cases h
        rfl
      · rw [fetchEvents_of_pollFailed t net hf] at h
        right
        cases h
        rfl

/-- An entry whose timestamp is an object with a member of its own named
`toString` makes line 48 raise: the row callback does not complete. -/
theorem App_raises_on_unconvertible_timestamp (env : JsEnv) :
    App env
      { events := .arr [.obj [("timestamp", .obj [("toString", .num 0)])]], error := none }
      = .error conversionError := by
  rw [App_eq, renderFeed_arr]
  simp [mapRows, renderRow, displayTime, JSValue.member, lookupMember, JSValue.convertible,
    Except.map, bind, Except.bind, throw, throwThe, MonadExceptOf.throw]

/-! ## Rendering: results -/

/-- C3, as stated, fails: after a successful poll delivering one event and then
a failed poll (status 503), a state reachable from the initial one, the
component renders the error message and the event row of the earlier poll
together, on every platform. -/
theorem error_and_rows_shown_together :
    applyPolls initialState [okResponse (.arr [sampleEvent]), unavailable]
      = .ok { events := .arr [sampleEvent], error := some connectMessage } ∧
    (∀ env : JsEnv,
      App env { events := .arr [sampleEvent], error := some connectMessage }
        = .ok { banner := some connectMessage, feed := .rows [sampleRow env] }) ∧
    (∀ env : JsEnv,
      View.showsError { banner := some connectMessage, feed := .rows [sampleRow env] } = true ∧
      View.showsRows { banner := some connectMessage, feed := .rows [sampleRow env] } = true) := by
  refine ⟨rfl, fun env => ?_, fun env => ⟨rfl, rfl⟩⟩
  exact App_events env [loginEvent] (some connectMessage)

theorem rendered_view_facts (env : JsEnv) (s : FeedState) (v : View)
    (hv : App env s = .ok v) (herr : s.error ≠ some "") :
    (v.showsError = true ↔ s.error ≠ none) ∧
    v.banner = s.error ∧
    (v.showsPlaceholder = true ↔ (v.showsError = false ∧ v.showsRows = false)) ∧
    (v.showsRows = true ↔ ∃ xs, s.events = .arr xs ∧ xs ≠ []) := by
  rw [App_eq] at hv
  cases hf : renderFeed env s with
  | error e => simp [hf, Except.map] at hv
  | ok feed =>
    simp only [hf, Except.map, Except.ok.injEq] at hv
    subst hv
    have hbanner : renderBanner s.error = s.error := by
      cases he : s.error with
      | none => rfl
      | some msg =>
        have : msg ≠ "" := fun h => herr (by rw [he, h])
        simp [renderBanner, errorTruthy, this]
    have htruthy : errorTruthy s.error = true ↔ s.error ≠ none := by
      cases he : s.error with
      | none => simp [errorTruthy]
      | some msg =>
        have : msg ≠ "" := fun h => herr (by rw [he, h])
        simp [errorTruthy, this]
    have hshow : (renderBanner s.error).isSome = true ↔ s.error ≠ none := by
      rw [hbanner]
      cases s.error <;> simp
    rcases renderFeed_ok_cases env s feed hf with ⟨xs, rows, hxs, hne, hrows, hfeed⟩ | ⟨hnil, hfeed⟩
    · subst hfeed
      have hlen := mapRows_length env xs 0 rows hrows
      obtain ⟨row, rest, rfl⟩ : ∃ row rest, rows = row :: rest := by
        cases rows with
        | nil =>
          exfalso
          apply hne
          exact List.eq_nil_of_length_eq_zero hlen.symm
        | cons row rest => exact ⟨row, rest, rfl⟩
      refine ⟨hshow, hbanner, ?_, ?_⟩
      · simp [View.showsPlaceholder, View.showsRows]
      · simp only [View.showsRows, true_iff]
        exact ⟨xs, hxs, hne⟩
    · have hnorows : ¬ ∃ xs, s.events = .arr xs ∧ xs ≠ [] := by
        rintro ⟨xs, hxs, hne⟩
        exact hne (hnil xs hxs)
      refine ⟨hshow, hbanner, ?_, ?_⟩
      · subst hfeed
        cases he : errorTruthy s.error
        · have hnone : s.error = none := by
            by_contra hc
            rw [htruthy.2 hc] at he
            cases he
          simp [View.showsPlaceholder, View.showsRows, View.showsError, hnone, renderBanner,
            errorTruthy]
        · have hsome : (renderBanner s.error).isSome = true := hshow.2 (htruthy.1 he)
          simp [View.showsPlaceholder, View.showsRows, View.showsError, hsome]
      · subst hfeed
        cases he : errorTruthy s.error <;> simp [View.showsRows, hnorows]

/-- C3, amended: every state reachable from the initial state by any sequence
of poll results has `error` null or a non-empty message. For every feed state
with such an `error` that renders, the error message is shown exactly when
`error` is set and it is the text of `error`; the placeholder is shown exactly
when neither the error message nor any event row is shown; and event rows are
shown exactly when `events` is a non-empty sequence, whether or not `error` is
set. So the placeholder never appears with one of the other two and at least
one of the three always appears, while a set `error` does not hide the rows. -/
theorem display_modes (env : JsEnv) (s : FeedState) (v : View)
    (hv : App env s = .ok v) (herr : s.error ≠ some "") :
    (∀ (polls : List FetchOutcome) (t : FeedState),
      applyPolls initialState polls = .ok t → t.error ≠ some "") ∧
    (v.showsError = true ↔ s.error ≠ none) ∧
    v.banner = s.error ∧
    (v.showsPlaceholder = true ↔ (v.showsError = false ∧ v.showsRows = false)) ∧
    (v.showsRows = true ↔ ∃ xs, s.events = .arr xs ∧ xs ≠ []) := by
  refine ⟨?_, rendered_view_facts env s v hv herr⟩
  intro polls t ht
  rcases applyPolls_error_cases polls t ht with h | h <;> rw [h]
  · simp
  · decide

/-- C3, amended, at the state reached by a successful poll with one event
followed by a 503: the error message and the row are both shown, the
placeholder is not. -/
theorem display_modes_witness :
    (∀ env : JsEnv,
      App env { events := .arr [sampleEvent], error := some connectMessage }
        = .ok { banner := some connectMessage, feed := .rows [sampleRow env] }) ∧
    some connectMessage ≠ some "" ∧
    (∀ env : JsEnv,
      (∀ (polls : List FetchOutcome) (t : FeedState),
        applyPolls initialState polls = .ok t → t.error ≠ some "") ∧
      (View.showsError { banner := some connectMessage, feed := .rows [sampleRow env] } = true ↔
        some connectMessage ≠ none) ∧
      some connectMessage = some connectMessage ∧
      (View.showsPlaceholder { banner := some connectMessage, feed := .rows [sampleRow env] } = true
        ↔ (View.showsError { banner := some connectMessage, feed := .rows [sampleRow env] } = false ∧
          View.showsRows { banner := some connectMessage, feed := .rows [sampleRow env] } = false)) ∧
      (View.showsRows { banner := some connectMessage, feed := .rows [sampleRow env] } = true ↔
        ∃ xs, JSValue.arr [sampleEvent] = .arr xs ∧ xs ≠ [])) :=
  have hrender : ∀ env : JsEnv,
      App env { events := .arr [sampleEvent], error := some connectMessage }
        = .ok { banner := some connectMessage, feed := .rows [sampleRow env] } :=
    fun env => App_events env [loginEvent] (some connectMessage)
  have hmsg : some connectMessage ≠ some "" := by decide
  ⟨hrender, hmsg, fun env => display_modes env _ _ (hrender env) hmsg⟩

/-- C5, as stated, fails: an ok response whose body is the array `[null]`, or
the JSON string `"abc"`, is stored by `fetchEvents` as `events` with `error`
cleared, and rendering the resulting state raises a `TypeError` on every
platform. -/
theorem render_raises_after_misshapen_body :
    isEventList (.arr [.null]) = false ∧
    fetchEvents initialState (okResponse (.arr [.null]))
      = .ok { events := .arr [.null], error := none } ∧
    (∀ env : JsEnv,
      App env { events := .arr [.null], error := none }
        = .error { name := "TypeError"
                   message := "Cannot read properties of null (reading \x27hostname\x27)" }) ∧
    isEventList (.str "abc") = false ∧
    fetchEvents initialState (okResponse (.str "abc"))
      = .ok { events := .str "abc", error := none } ∧
    (∀ env : JsEnv,
      App env { events := .str "abc", error := none }
        = .error { name := "TypeError", message := "events.map is not a function" }) := by
  refine ⟨rfl, rfl, fun env => ?_, rfl, rfl, fun env => ?_⟩
  · rw [App_eq, renderFeed_arr]
    rfl
  · have hrows : hasRows env (.str "abc") = .ok true := by
      have h3 : utf16Length "abc" = 3 := by decide
      simp [hasRows, JSValue.truthy, gtZero, JSValue.length, h3, pure, Except.pure]
    rw [App_eq, renderFeed_of_hasRows env _ true hrows]
    rfl

/-- C5, amended: `fetchEvents` completes without raising for every outcome of
the network request. When the outcome is one the code treats as a failure
(transport error, non-ok status, body whose parsing throws), the failure
appears as the `error` value of the state and nowhere else (`events` is
untouched), rendering the resulting state raises exactly when rendering the
state before the poll does, and it does not raise when the prior `events` is a
sequence of event records. -/
theorem failed_poll_is_contained (env : JsEnv) (s : FeedState) (net : FetchOutcome)
    (hfail : pollFailed net = true) :
    (∀ (t : FeedState) (other : FetchOutcome), ∃ t1, fetchEvents t other = .ok t1) ∧
    ∃ s1, fetchEvents s net = .ok s1 ∧
      s1.error = some connectMessage ∧ s1.events = s.events ∧
      ((∃ v, App env s1 = .ok v) ↔ (∃ v, App env s = .ok v)) ∧
      (∀ es : List Event, s.events = .arr (es.map Event.toJSON) → ∃ v, App env s1 = .ok v) := by
  constructor
  · intro t other
    unfold fetchEvents
    cases fetchData other <;> exact ⟨_, rfl⟩
  · refine ⟨{ events := s.events, error := some connectMessage },
      fetchEvents_of_pollFailed s net hfail, rfl, rfl, App_ok_congr env _ _ rfl, ?_⟩
    intro es hes
    rw [hes]
    exact ⟨_, App_events env es (some connectMessage)⟩

/-- C5, amended, at a 503 response received while two events are displayed. -/
theorem failed_poll_is_contained_witness :
    pollFailed unavailable = true ∧
    (∀ env : JsEnv,
      (∀ (t : FeedState) (other : FetchOutcome), ∃ t1, fetchEvents t other = .ok t1) ∧
      ∃ s1,
        fetchEvents { events := .arr ([loginEvent, scanEvent].map Event.toJSON), error := none }
          unavailable = .ok s1 ∧
        s1.error = some connectMessage ∧
        s1.events = FeedState.events
          { events := .arr ([loginEvent, scanEvent].map Event.toJSON), error := none } ∧
        ((∃ v, App env s1 = .ok v) ↔
          (∃ v, App env
            { events := .arr ([loginEvent, scanEvent].map Event.toJSON), error := none } = .ok v)) ∧
        (∀ es : List Event,
          FeedState.events
            { events := .arr ([loginEvent, scanEvent].map Event.toJSON), error := none }
              = .arr (es.map Event.toJSON) →
          ∃ v, App env s1 = .ok v)) :=
  ⟨rfl, fun env => failed_poll_is_contained env
    { events := .arr ([loginEvent, scanEvent].map Event.toJSON), error := none } unavailable rfl⟩

/-- C6: for every feed state whose `events` is a sequence (and whose `error`
is not the empty string, a value the component never stores), the
awaiting-data placeholder is rendered if and only if `error` is absent and
`events` is empty; the initial state and the state after an ok response with
body `[]` render the placeholder and nothing else. -/
theorem placeholder_iff_healthy_and_empty (env : JsEnv) (xs : List JSValue)
    (error : Option String) (herr : error ≠ some "") :
    ((∃ v, App env { events := .arr xs, error := error } = .ok v ∧ v.showsPlaceholder = true)
        ↔ (error = none ∧ xs = [])) ∧
    App env initialState = .ok { banner := none, feed := .placeholder } ∧
    (∀ (s : FeedState) (status : Nat),
      (fetchEvents s (.ok { ok := true, status := status, json := .ok (.arr []) }) >>= App env)
        = .ok { banner := none, feed := .placeholder }) := by
  have hinit : App env initialState = .ok { banner := none, feed := .placeholder } := by
    rw [App_eq, initialState, renderFeed_arr]
    rfl
  refine ⟨?_, hinit, fun s status => hinit⟩
  constructor
  · rintro ⟨v, hv, hp⟩
    obtain ⟨hshow, -, hpl, hrows⟩ := rendered_view_facts env _ v hv herr
    obtain ⟨hnoerr, hnorows⟩ := hpl.1 hp
    constructor
    · by_contra hc
      have := hshow.2 hc
      rw [hnoerr] at this
      cases this
    · by_contra hc
      have := hrows.2 ⟨xs, rfl, hc⟩
      rw [hnorows] at this
      cases this
  · rintro ⟨rfl, rfl⟩
    exact ⟨_, hinit, rfl⟩

/-- C6 at the initial state, on every platform. -/
theorem placeholder_iff_healthy_and_empty_witness :
    (none : Option String) ≠ some "" ∧
    (∀ env : JsEnv,
      ((∃ v, App env { events := .arr [], error := none } = .ok v ∧
          v.showsPlaceholder = true) ↔ ((none : Option String) = none ∧ ([] : List JSValue) = [])) ∧
      App env initialState = .ok { banner := none, feed := .placeholder } ∧
      (∀ (s : FeedState) (status : Nat),
        (fetchEvents s (.ok { ok := true, status := status, json := .ok (.arr []) })
            >>= App env)
          = .ok { banner := none, feed := .placeholder })) :=
  ⟨by simp, fun env => placeholder_iff_healthy_and_empty env [] none (by simp)⟩

/-- C7: for every feed state with no error and a non-empty `events` sequence
of event records, rendering succeeds with no error message and a list that has
exactly one row per event; row `i` is built from event `i`, is keyed by `i`,
carries that event's `hostname`, `details` and `event_type` as the strings
received, and only `timestamp` goes through the display-time formatting. -/
theorem rows_follow_events (env : JsEnv) (es : List Event) (hne : es ≠ []) :
    ∃ rows : List EventRow,
      App env { events := .arr (es.map Event.toJSON), error := none }
        = .ok { banner := none, feed := .rows rows } ∧
      rows.length = es.length ∧
      ∀ (i : Nat) (e : Event), es[i]? = some e →
        rows[i]? = some
          { key := i
            hostname := some (.str e.hostname)
            time := env.toLocaleString (some (.str e.timestamp))
            details := some (.str e.details)
            event_type := some (.str e.event_type) } := by
  have hx : es.isEmpty = false := by
    cases es with
    | nil => exact absurd rfl hne
    | cons e rest => rfl
  refine ⟨(List.range es.length).zipWith
      (fun k e =>
        { key := k
          hostname := some (.str e.hostname)
          time := env.toLocaleString (some (.str e.timestamp))
          details := some (.str e.details)
          event_type := some (.str e.event_type) }) es, ?_, ?_, ?_⟩
  · rw [App_events, hx]
    rfl
  · simp
  · intro i e hie
    have hi : i < es.length := by
      by_contra hc
      rw [List.getElem?_eq_none (Nat.le_of_not_lt hc)] at hie
      cases hie
    simp [List.getElem?_zipWith, hie, List.getElem?_range hi]

/-- C7 at two events from different hosts: the rendered list is the two rows,
in the order received, each with the strings of its own event. -/
theorem rows_follow_events_witness :
    [loginEvent, scanEvent] ≠ [] ∧
    (∀ env : JsEnv,
      App env { events := .arr [loginEvent.toJSON, scanEvent.toJSON], error := none }
        = .ok
          { banner := none
            feed := .rows
              [ { key := 0
                  hostname := some (.str "h1")
                  time := env.toLocaleString (some (.str "2024-01-01T00:00:00Z"))
                  details := some (.str "ok")
                  event_type := some (.str "LOGIN") },
                { key := 1
                  hostname := some (.str "h2")
                  time := env.toLocaleString (some (.str "2024-01-01T00:05:00Z"))
                  details := some (.str "blocked")
                  event_type := some (.str "PORT_SCAN") } ] }) ∧
    (∀ env : JsEnv, ∃ rows : List EventRow,
      App env { events := .arr ([loginEvent, scanEvent].map Event.toJSON), error := none }
        = .ok { banner := none, feed := .rows rows } ∧
      rows.length = [loginEvent, scanEvent].length ∧
      ∀ (i : Nat) (e : Event), [loginEvent, scanEvent][i]? = some e →
        rows[i]? = some
          { key := i
            hostname := some (.str e.hostname)
            time := env.toLocaleString (some (.str e.timestamp))
            details := some (.str e.details)
            event_type := some (.str e.event_type) }) :=
  have hne : [loginEvent, scanEvent] ≠ [] := by simp
  ⟨hne, fun env => App_events env [loginEvent, scanEvent] none,
    fun env => rows_follow_events env [loginEvent, scanEvent] hne⟩

/-! ## The poll scheduler: results -/

theorem run_append (s : Scheduler) (first second : List Lifecycle) :
    s.run (first ++ second) = (s.run first).run second := by
  simp [Scheduler.run, List.foldl_append]

theorem run_elapse_ticking (ds : List Nat) (s : Scheduler) (start base : Nat)
    (hstart : start ≤ s.now)
    (hdue : s.interval = some (start + 3000 * ((s.now - start) / 3000 + 1)))
    (hpolls : s.polls = base + (s.now - start) / 3000) :
    (s.run (ds.map Lifecycle.elapse)).now = s.now + ds.sum ∧
    (s.run (ds.map Lifecycle.elapse)).interval
      = some (start + 3000 * ((s.now + ds.sum - start) / 3000 + 1)) ∧
    (s.run (ds.map Lifecycle.elapse)).polls = base + (s.now + ds.sum - start) / 3000 := by
  induction ds generalizing s with
  | nil => exact ⟨rfl, by simpa using hdue, by simpa using hpolls⟩
  | cons d rest ih =>
    have hstep : s.step (.elapse d) =
        { now := s.now + d
          interval := some (start + 3000 * ((s.now - start) / 3000 + 1)
            + firings s.now (start + 3000 * ((s.now - start) / 3000 + 1)) d * pollInterval)
          polls := s.polls
            + firings s.now (start + 3000 * ((s.now - start) / 3000 + 1)) d } := by
      simp [Scheduler.step, hdue]
    have hfire : start + 3000 * ((s.now - start) / 3000 + 1)
          + firings s.now (start + 3000 * ((s.now - start) / 3000 + 1)) d * pollInterval
          = start + 3000 * ((s.now + d - start) / 3000 + 1) ∧
        s.polls + firings s.now (start + 3000 * ((s.now - start) / 3000 + 1)) d
          = base + (s.now + d - start) / 3000 := by
      unfold firings pollInterval
      split_ifs <;> omega
    have := ih (s.step (.elapse d)) (by rw [hstep]; simp only; omega)
      (by rw [hstep]; simp only; rw [hfire.1]) (by rw [hstep]; simp only; rw [hfire.2])
    simp only [List.map_cons, Scheduler.run, List.foldl_cons, List.sum_cons] at this ⊢
    rw [hstep] at this ⊢
    simp only [Nat.add_assoc] at this ⊢
    exact this

theorem run_stopped (trace : List Lifecycle) (s : Scheduler)
    (hidle : s.interval = none) (hno : ∀ ev ∈ trace, ev ≠ Lifecycle.mount) :
    (s.run trace).polls = s.polls := by
  induction trace generalizing s with
  | nil => rfl
  | cons ev rest ih =>
    have hrest : ∀ e ∈ rest, e ≠ Lifecycle.mount := fun e he => hno e (List.mem_cons_of_mem _ he)
    have hev : ev ≠ Lifecycle.mount := hno ev (List.mem_cons_self _ _)
    simp only [Scheduler.run, List.foldl_cons]
    cases ev with
    | mount => exact absurd rfl hev
    | elapse ms =>
      have h := ih (s.step (.elapse ms)) (by simp [Scheduler.step, hidle]) hrest
      simp only [Scheduler.run] at h
      rw [h]
      simp [Scheduler.step, hidle]
    | unmount =>
      have h := ih (s.step .unmount) (by simp [Scheduler.step]) hrest
      simp only [Scheduler.run] at h
      rw [h]
      simp [Scheduler.step]

theorem run_mount_elapse (clock : Nat) (ds : List Nat) :
    (Scheduler.run { now := clock, interval := none, polls := 0 }
        (.mount :: ds.map Lifecycle.elapse)).polls = ds.sum / 3000 + 1 := by
  have h := run_elapse_ticking ds
    { now := clock, interval := some (clock + pollInterval), polls := 1 } clock 1
    (Nat.le_refl _) (by simp [pollInterval]) (by simp)
  simp only [Scheduler.run, List.foldl_cons, Scheduler.step] at h ⊢
  rw [h.2.2]
  simp only [Nat.add_sub_cancel_left]
  omega

/-- C9: the effect hook as a step function over mount, elapsed time and
unmount. Mounting triggers exactly one immediate poll; each 3000 ms tick after
it triggers exactly one further poll, so `n` elapsed intervals give `n + 1`
polls (and time elapsed in steps of any length totalling `T` ms gives
`T / 3000 + 1` polls); once the cleanup has run, no later elapse of time or
repeated cleanup triggers another poll. -/
theorem scheduler_polls (clock n : Nat) (ds : List Nat) (later : List Lifecycle)
    (hlater : ∀ ev ∈ later, ev ≠ Lifecycle.mount) :
    (Scheduler.run { now := clock, interval := none, polls := 0 } [.mount]).polls = 1 ∧
    (Scheduler.run { now := clock, interval := none, polls := 0 }
        (.mount :: List.replicate n (.elapse 3000))).polls = n + 1 ∧
    (Scheduler.run { now := clock, interval := none, polls := 0 }
        (.mount :: List.replicate n (.elapse 3000) ++ .unmount :: later)).polls = n + 1 ∧
    (Scheduler.run { now := clock, interval := none, polls := 0 }
        (.mount :: ds.map Lifecycle.elapse)).polls = ds.sum / 3000 + 1 ∧
    (Scheduler.run { now := clock, interval := none, polls := 0 }
        (.mount :: ds.map Lifecycle.elapse ++ .unmount :: later)).polls = ds.sum / 3000 + 1 := by
  have hticks : List.replicate n (Lifecycle.elapse 3000)
      = (List.replicate n 3000).map Lifecycle.elapse := by simp
  have hsum : (List.replicate n 3000).sum / 3000 + 1 = n + 1 := by
    simp [List.sum_replicate]
  have hstop : ∀ es : List Nat,
      (Scheduler.run { now := clock, interval := none, polls := 0 }
        (.mount :: es.map Lifecycle.elapse ++ .unmount :: later)).polls = es.sum / 3000 + 1 := by
    intro es
    rw [← run_mount_elapse clock es, run_append]
    have hcut : ((Scheduler.run { now := clock, interval := none, polls := 0 }
        (.mount :: es.map Lifecycle.elapse)).step .unmount).polls
        = (Scheduler.run { now := clock, interval := none, polls := 0 }
            (.mount :: es.map Lifecycle.elapse)).polls := rfl
    rw [← hcut]
    have := run_stopped later ((Scheduler.run { now := clock, interval := none, polls := 0 }
        (.mount :: es.map Lifecycle.elapse)).step .unmount) rfl hlater
    simpa [Scheduler.run] using this
  refine ⟨rfl, ?_, ?_, run_mount_elapse clock ds, hstop ds⟩
  · rw [hticks, run_mount_elapse, hsum]
  · rw [hticks, hstop, hsum]

/-- C9 for a component mounted at clock 0, two full intervals and, after the
cleanup, ten more seconds followed by a second cleanup. -/
theorem scheduler_polls_witness :
    (∀ ev ∈ [Lifecycle.elapse 10000, Lifecycle.unmount], ev ≠ Lifecycle.mount) ∧
    ((Scheduler.run { now := 0, interval := none, polls := 0 } [.mount]).polls = 1 ∧
    (Scheduler.run { now := 0, interval := none, polls := 0 }
        (.mount :: List.replicate 2 (.elapse 3000))).polls = 2 + 1 ∧
    (Scheduler.run { now := 0, interval := none, polls := 0 }
        (.mount :: List.replicate 2 (.elapse 3000) ++
          .unmount :: [Lifecycle.elapse 10000, Lifecycle.unmount])).polls = 2 + 1 ∧
    (Scheduler.run { now := 0, interval := none, polls := 0 }
        (.mount :: [1000, 2500, 4000].map Lifecycle.elapse)).polls
      = [1000, 2500, 4000].sum / 3000 + 1 ∧
    (Scheduler.run { now := 0, interval := none, polls := 0 }
        (.mount :: [1000, 2500, 4000].map Lifecycle.elapse ++
          .unmount :: [Lifecycle.elapse 10000, Lifecycle.unmount])).polls
      = [1000, 2500, 4000].sum / 3000 + 1) :=
  have hlater : ∀ ev ∈ [Lifecycle.elapse 10000, Lifecycle.unmount], ev ≠ Lifecycle.mount := by
    intro ev hev
    simp only [List.mem_cons, List.mem_singleton, List.not_mem_nil, or_false] at hev
    rcases hev with h | h <;> rw [h] <;> simp
  ⟨hlater, scheduler_polls 0 2 [1000, 2500, 4000] _ hlater⟩

end Sentinel
